import Mathlib

/-
Verification of the znc-logviewer module (src/logviewer.py) against its
natural-language specification.  The Python source is shallowly embedded:
pure string manipulation is translated to Lean functions on String and
List Char, filesystem access is abstracted into an explicit environment
(a map from paths to file contents and directory listings), printed
output is collected into a List String, and a raised Python exception is
an Except.error value.
-/

namespace LogViewer

/-
Decidable equality for Except values, used to evaluate concrete runs of
the embedded dispatcher.
-/
instance {ε α : Type} [DecidableEq ε] [DecidableEq α] : DecidableEq (Except ε α)
  | Except.ok a, Except.ok b =>
    if h : a = b then isTrue (by rw [h]) else isFalse (fun hh => h (Except.ok.inj hh))
  | Except.ok _, Except.error _ => isFalse (fun hh => Except.noConfusion hh)
  | Except.error _, Except.ok _ => isFalse (fun hh => Except.noConfusion hh)
  | Except.error e, Except.error f =>
    if h : e = f then isTrue (by rw [h]) else isFalse (fun hh => h (Except.error.inj hh))

/- Model of the Python str.lower method (ASCII case folding). -/
def lowerChar (c : Char) : Char :=
  if 'A' ≤ c ∧ c ≤ 'Z' then Char.ofNat (c.toNat + 32) else c

def pyLower (s : String) : String := String.mk (s.data.map lowerChar)

/- Model of the Python str.split() whitespace set. -/
def isSpaceChar (c : Char) : Bool :=
  c = ' ' || c = '\t' || c = '\n' || c = '\r' || c = '\x0b' || c = '\x0c'

def splitWsAux : List Char → List Char → List String
  | [], acc => if acc = [] then [] else [String.mk acc.reverse]
  | c :: rest, acc =>
    if isSpaceChar c then
      (if acc = [] then [] else [String.mk acc.reverse]) ++ splitWsAux rest []
    else splitWsAux rest (c :: acc)

/-
Model of the Python str.split() with no separator argument: split on runs
of whitespace, discarding empty tokens.
-/
def pySplit (s : String) : List String := splitWsAux s.data []

/-
Model of the Python expression basename.replace(".log", "") used in
IrcLogPathBuilder.GetLogsDates: every non-overlapping occurrence of the
substring ".log" is removed, scanning left to right.
-/
def replaceLogChars : List Char → List Char
  | '.' :: 'l' :: 'o' :: 'g' :: rest => replaceLogChars rest
  | c :: rest => c :: replaceLogChars rest
  | [] => []

def stripLogAll (s : String) : String := String.mk (replaceLogChars s.data)

/-
Code-point comparison of Python strings, as used by the builtin sorted.
strLtChars x y decides whether x is strictly smaller than y in the
lexicographic order on code points.
-/
def strLtChars : List Char → List Char → Bool
  | [], [] => false
  | [], _ :: _ => true
  | _ :: _, [] => false
  | a :: as, b :: bs =>
    if a.toNat < b.toNat then true
    else if b.toNat < a.toNat then false
    else strLtChars as bs

def pyLe (a b : String) : Prop := strLtChars b.data a.data = false

instance : DecidableRel pyLe :=
  fun a b => inferInstanceAs (Decidable (strLtChars b.data a.data = false))

/-
Model of os.path.join for two POSIX path components, following the
reference implementation of posixpath.join: an absolute second component
replaces the first, otherwise a separator is inserted unless the first
component is empty or already ends with one.
-/
def osJoin2 (a b : String) : String :=
  if b.data.head? = some '/' then b
  else if a.data = [] ∨ a.data.getLast? = some '/' then a ++ b
  else a ++ "/" ++ b

def osJoin (a : String) (rest : List String) : String := rest.foldl osJoin2 a

/-
IrcLogPathBuilder.__getBasePath: os.path.join of the home directory,
".znc", "users", the user, "moddata", "log" and the network.
-/
def getBasePath (home user network : String) : String :=
  osJoin home [".znc", "users", user, "moddata", "log", network]

/-
IrcLogPathBuilder.GetLogPath: os.path.join of the base path, the window
and the date with a ".log" suffix.
-/
def GetLogPath (home user network window date : String) : String :=
  osJoin (getBasePath home user network) [window, date ++ ".log"]

/- One entry of a directory listing: a basename and whether it is a directory. -/
structure DirEntry where
  name : String
  isDir : Bool
deriving DecidableEq

def isHiddenName (n : String) : Bool := n.data.head? = some '.'

/-
Which basenames the glob pattern "*.log" matches: names ending in ".log",
except hidden names, which a leading star never matches.
-/
def globStarLogMatch (n : String) : Bool :=
  !isHiddenName n && List.isSuffixOf ".log".data n.data

/- Which basenames the glob pattern "*" matches: every non-hidden name. -/
def globStarMatch (n : String) : Bool := !isHiddenName n

/-
The environment a command runs in: the identity context delivered by the
host (home directory, user name, network name) together with an abstract
read-only filesystem.  files maps a path to the decoded lines of an
existing regular file, none when no such file exists; dirs maps a
directory path to its listing, in enumeration order.  compile abstracts
re.compile: on success it yields the per-line matcher given by re search
(true on a line when the pattern matches anywhere in it), on failure the
exception text.
-/
structure Env where
  home : String
  user : String
  network : String
  files : String → Option (List String)
  dirs : String → List DirEntry
  compile : String → Except String (String → Bool)

/-
IrcLogPathBuilder.GetLogsDates: glob the window directory for "*.log"
and strip with basename.replace(".log", "").
-/
def GetLogsDates (e : Env) (w : String) : List String :=
  ((e.dirs (osJoin (getBasePath e.home e.user e.network) [w])).filter
    (fun en => globStarLogMatch en.name)).map (fun en => stripLogAll en.name)

/-
IrcLogPathBuilder.GetWinList: glob the base path for "*" and keep only
directory entries.
-/
def GetWinList (e : Env) : List String :=
  ((e.dirs (getBasePath e.home e.user e.network)).filter
    (fun en => globStarMatch en.name && en.isDir)).map (fun en => en.name)

/-
One command handler: verb name, argument usage string, description, and
the concrete action _DoPerform, returning the lines it prints.
-/
structure Command where
  name : String
  argStr : String
  descr : String
  doPerform : List String → List String

/- AbstractLogViewerCommand.Help: usage line then description. -/
def cmdHelp (c : Command) : List String := [c.name ++ " " ++ c.argStr, c.descr]

/- AbstractLogViewerCommand.Describe. -/
def Describe (c : Command) : String := c.name ++ " - " ++ c.descr

/- AbstractLogViewerCommand.PrintErr prefixes the message with "ERROR: ". -/
def printErr (s : String) : String := "ERROR: " ++ s

/-
AbstractLogViewerCommand.Perform: a leading "help" token (case-folded)
short-circuits to the usage text; a missing argument list (None) is
normalized to the empty list before the concrete action runs.
-/
def Perform (c : Command) (args : Option (List String)) : List String :=
  match args with
  | some (a :: rest) => if pyLower a = "help" then cmdHelp c else c.doPerform (a :: rest)
  | some [] => c.doPerform []
  | none => c.doPerform []

def notFoundMsg (w d p : String) : String :=
  "No such log file for " ++ w ++ " on " ++ d ++ " (" ++ p ++ ")"

/-
LogCatCommand.__showLog: resolve the path, report when the file is
missing, otherwise print a header and then every line of the file.
-/
def showLog (e : Env) (w d : String) : List String :=
  let p := GetLogPath e.home e.user e.network w d
  match e.files p with
  | none => [printErr (notFoundMsg w d p)]
  | some lines => ("Content of " ++ p ++ ":") :: lines

/-
LogGrepCommand.__grepLog: resolve the path, report when the file is
missing, otherwise print a header, compile the pattern, and print every
line on which the pattern search succeeds; a compile failure is reported
as an error line after the header.
-/
def grepLog (e : Env) (w d rx : String) : List String :=
  let p := GetLogPath e.home e.user e.network w d
  match e.files p with
  | none => [printErr (notFoundMsg w d p)]
  | some lines =>
    ("Content of " ++ p ++ " matching " ++ rx ++ ":") ::
      (match e.compile rx with
       | Except.error err => [printErr err]
       | Except.ok m => lines.filter (fun l => m l))

def LogCatCommand (e : Env) : Command where
  name := "LogCat"
  argStr := "<window> <date>"
  descr := "View log file for window and date (current network)."
  doPerform := fun args =>
    match args with
    | [w, d] => showLog e w d
    | _ => ["LogCat <window> <date>",
            "View log file for window and date (current network)."]

def LogGrepCommand (e : Env) : Command where
  name := "LogGrep"
  argStr := "<window> <date> <regex>"
  descr := "Grep log file for window and date (current network) with regex."
  doPerform := fun args =>
    match args with
    | [w, d, rx] => grepLog e w d rx
    | _ => ["LogGrep <window> <date> <regex>",
            "Grep log file for window and date (current network) with regex."]

/-
LogDatesCommand._DoPerform: the builtin sorted is modeled by insertion
sort under the code-point order pyLe; any stable comparison sort yields
this same list.
-/
def LogDatesCommand (e : Env) : Command where
  name := "LogDates"
  argStr := "<window>"
  descr := "List all available dates for window."
  doPerform := fun args =>
    match args with
    | [w] =>
      let aDates := GetLogsDates e w
      if aDates.length > 0 then
        ("List of all available log date for window " ++ w ++ ":") ::
          aDates.insertionSort pyLe
      else
        [printErr ("No such logs for window " ++ w)]
    | _ => ["LogDates <window>", "List all available dates for window."]

def LogWindowsCommand (e : Env) : Command where
  name := "LogWindows"
  argStr := ""
  descr := "List all available windows."
  doPerform := fun args =>
    match args with
    | [] =>
      let aWins := GetWinList e
      if aWins.length > 0 then
        "List of all available windows:" :: aWins.insertionSort pyLe
      else
        [printErr "No such windows logs"]
    | _ => ["LogWindows ", "List all available windows."]

/-
LogViewerCommandDispatcher.AddCommand: the registry is an association
list keyed by the case-folded verb, in insertion order, matching the
Python dict; a duplicate key raises NameError("command already
registered").
-/
def AddCommand (d : List (String × Command)) (c : Command) :
    Except String (List (String × Command)) :=
  if pyLower c.name ∈ d.map Prod.fst then
    Except.error "command already registered"
  else
    Except.ok (d ++ [(pyLower c.name, c)])

/- The sequence of AddCommand calls performed by logviewer.OnLoad. -/
def loadCommands : List (String × Command) → List Command →
    Except String (List (String × Command))
  | d, [] => Except.ok d
  | d, c :: cs =>
    match AddCommand d c with
    | Except.error e => Except.error e
    | Except.ok d2 => loadCommands d2 cs

/-
logviewer.OnLoad: build the dispatcher and register the handlers; on an
exception return False with the message set to "Error: " followed by the
exception text, otherwise True with the message untouched.
-/
def OnLoad (cs : List Command) : Bool × Option String :=
  match loadCommands [] cs with
  | Except.ok _ => (true, none)
  | Except.error e => (false, some ("Error: " ++ e))

def findCommand (d : List (String × Command)) (k : String) : Option Command :=
  (d.find? (fun p => p.1 == k)).map (fun p => p.2)

/-
LogViewerCommandDispatcher.Dispatch: split the line on whitespace;
indexing args[0] on an empty token list raises IndexError; otherwise the
case-folded first token selects a handler (passing None when no further
tokens exist), or the help banner, or the not-found message which echoes
the first token verbatim.
-/
def Dispatch (d : List (String × Command)) (line : String) :
    Except String (List String) :=
  match pySplit line with
  | [] => Except.error "list index out of range"
  | a0 :: rest =>
    match findCommand d (pyLower a0) with
    | some c => Except.ok (Perform c (if rest.isEmpty then none else some rest))
    | none =>
      if pyLower a0 = "help" then
        Except.ok (["View and search logs.",
                    "---------------------",
                    "Available commands: "]
          ++ d.map (fun p => Describe p.2)
          ++ ["Use \"<command> help\" for usage info."])
      else
        Except.ok (["Command not found: " ++ a0,
                    "Use Help for list of available commands"])

/-
logviewer.OnModCommand: forward the line to Dispatch and return True; a
raised exception propagates instead of reaching the return.
-/
def OnModCommand (d : List (String × Command)) (line : String) :
    Except String Bool :=
  match Dispatch d line with
  | Except.ok _ => Except.ok true
  | Except.error e => Except.error e

/- The four handlers registered by logviewer.OnLoad, in order. -/
def defaultCommands (e : Env) : List Command :=
  [LogCatCommand e, LogGrepCommand e, LogDatesCommand e, LogWindowsCommand e]

/-
Definition following the words of the specification, for comparison with
stripLogAll: the basename with only the trailing ".log" extension
stripped and nothing else removed.
-/
def specTrailingStem (n : String) : String :=
  if List.isSuffixOf ".log".data n.data then
    String.mk (n.data.take (n.data.length - 4))
  else n

/- Concrete environments used to evaluate the embedded code. -/

def emptyEnv : Env where
  home := "/h"
  user := "u"
  network := "n"
  files := fun _ => none
  dirs := fun _ => []
  compile := fun _ => Except.ok (fun _ => false)

def testRegistry : List (String × Command) :=
  match loadCommands [] (defaultCommands emptyEnv) with
  | Except.ok d => d
  | Except.error _ => []

def oneFileEnv : Env where
  home := "/h"
  user := "u"
  network := "n"
  files := fun p => if p = "/h/.znc/users/u/moddata/log/n/w/d.log" then
      some ["foo bar", "baz"] else none
  dirs := fun _ => []
  compile := fun rx => if rx = "(" then Except.error "missing ), unterminated subpattern"
    else Except.ok (fun l => l.data.head? == some 'f')

def dotLogEnv : Env where
  home := "/h"
  user := "u"
  network := "n"
  files := fun _ => none
  dirs := fun _ => [⟨"2024.log.log", false⟩]
  compile := fun _ => Except.ok (fun _ => false)

def hiddenDirEnv : Env where
  home := "/h"
  user := "u"
  network := "n"
  files := fun _ => none
  dirs := fun _ => [⟨".hidden", true⟩]
  compile := fun _ => Except.ok (fun _ => false)

def datesEnv : Env where
  home := "/h"
  user := "u"
  network := "n"
  files := fun _ => none
  dirs := fun _ => [⟨"2023-01-02.log", false⟩, ⟨"2023-01-01.log", false⟩]
  compile := fun _ => Except.ok (fun _ => false)

def winsEnv : Env where
  home := "/h"
  user := "u"
  network := "n"
  files := fun _ => none
  dirs := fun _ => [⟨"bchan", true⟩, ⟨"achan", true⟩]
  compile := fun _ => Except.ok (fun _ => false)

def dupCommandA : Command := LogCatCommand emptyEnv

def dupCommandB : Command := { LogCatCommand emptyEnv with name := "LOGCAT" }

/-
Properties of the code-point comparison: asymmetry, transitivity and
antisymmetry, giving pyLe the total preorder structure that the sorting
lemmas need.
-/

theorem strLtChars_asymm : ∀ x y, strLtChars x y = true → strLtChars y x = false := by
  intro x
  induction x with
  | nil => intro y _; cases y <;> simp [strLtChars]
  | cons a as ih =>
    intro y h
    cases y with
    | nil => simp [strLtChars] at h
    | cons b bs =>
      simp only [strLtChars] at h ⊢
      by_cases h1 : a.toNat < b.toNat
      · rw [if_neg (by omega), if_pos h1]
      · by_cases h2 : b.toNat < a.toNat
        · rw [if_neg h1, if_pos h2] at h
          simp at h
        · rw [if_neg h1, if_neg h2] at h
          rw [if_neg h2, if_neg h1]
          exact ih bs h

theorem strLtChars_trans : ∀ x y z, strLtChars x y = true → strLtChars y z = true →
    strLtChars x z = true := by
  intro x
  induction x with
  | nil =>
    intro y z hxy hyz
    cases y with
    | nil => simp [strLtChars] at hxy
    | cons b bs =>
      cases z with
      | nil => simp [strLtChars] at hyz
      | cons c cs => simp [strLtChars]
  | cons a as ih =>
    intro y z hxy hyz
    cases y with
    | nil => simp [strLtChars] at hxy
    | cons b bs =>
      cases z with
      | nil => simp [strLtChars] at hyz
      | cons c cs =>
        simp only [strLtChars] at hxy hyz ⊢
        by_cases h1 : a.toNat < b.toNat <;> by_cases h2 : b.toNat < c.toNat
        · rw [if_pos (by omega)]
        · rw [if_neg h2] at hyz
          by_cases h2a : c.toNat < b.toNat
          · rw [if_pos h2a] at hyz; simp at hyz
          · rw [if_pos (by omega)]
        · rw [if_neg h1] at hxy
          by_cases h1a : b.toNat < a.toNat
          · rw [if_pos h1a] at hxy; simp at hxy
          · rw [if_pos (by omega)]
        · rw [if_neg h1] at hxy
          rw [if_neg h2] at hyz
          by_cases h1a : b.toNat < a.toNat
          · rw [if_pos h1a] at hxy; simp at hxy
          · by_cases h2a : c.toNat < b.toNat
            · rw [if_pos h2a] at hyz; simp at hyz
            · rw [if_neg h1a] at hxy
              rw [if_neg h2a] at hyz
              rw [if_neg (by omega), if_neg (by omega)]
              exact ih bs cs hxy hyz

theorem strLtChars_eq_of_not : ∀ x y, strLtChars x y = false → strLtChars y x = false →
    x = y := by
  intro x
  induction x with
  | nil =>
    intro y h _
    cases y with
    | nil => rfl
    | cons b bs => simp [strLtChars] at h
  | cons a as ih =>
    intro y h h2
    cases y with
    | nil => simp [strLtChars] at h2
    | cons b bs =>
      simp only [strLtChars] at h h2
      by_cases h1 : a.toNat < b.toNat
      · rw [if_pos h1] at h; simp at h
      · by_cases h1a : b.toNat < a.toNat
        · rw [if_pos h1a] at h2; simp at h2
        · rw [if_neg h1, if_neg h1a] at h
          have hn : a.toNat = b.toNat := by omega
          have hab : a = b := Char.ext (UInt32.ext hn)
          subst hab
          rw [if_neg h1, if_neg h1a] at h2
          rw [ih bs h h2]

instance : IsTotal String pyLe :=
  ⟨fun a b => by
    unfold pyLe
    by_cases h : strLtChars b.data a.data = false
    · exact Or.inl h
    · exact Or.inr (strLtChars_asymm _ _ (by simpa using h))⟩

instance : IsTrans String pyLe :=
  ⟨fun a b c hab hbc => by
    unfold pyLe at *
    by_contra h
    have h1 : strLtChars c.data a.data = true := by simpa using h
    rcases Bool.eq_false_or_eq_true (strLtChars a.data b.data) with h3 | h3
    · have h4 := strLtChars_trans _ _ _ h1 h3
      rw [h4] at hbc
      simp at hbc
    · have hba : b.data = a.data := strLtChars_eq_of_not _ _ hab h3
      rw [hba, h1] at hbc
      simp at hbc⟩

/- Behavior of replace-all of ".log" on a stem free of dots. -/

theorem replaceLogChars_cons (c : Char) (l : List Char) (h : c ≠ '.') :
    replaceLogChars (c :: l) = c :: replaceLogChars l := by
  unfold replaceLogChars
  split
  · rename_i rest heq
    injection heq with hc hl
    exact absurd hc h
  · rename_i x1 c2 rest2 hnomatch heq
    injection heq with hc hl
    subst hc
    subst hl
    rw [← replaceLogChars.eq_def]
  · rename_i heq
    exact absurd heq (List.cons_ne_nil c l)

theorem replaceLogChars_append (l : List Char) (h : '.' ∉ l) :
    replaceLogChars (l ++ ".log".data) = l := by
  induction l with
  | nil => rfl
  | cons c cs ih =>
    have hc : c ≠ '.' := fun hh => h (hh ▸ List.mem_cons_self c cs)
    rw [List.cons_append, replaceLogChars_cons c _ hc,
        ih (fun hm => h (List.mem_cons_of_mem c hm))]

/- Unfolding facts about os.path.join on separator-free components. -/

theorem osJoin2_eq (a b : String) (ha : a.data ≠ []) (ha2 : a.data.getLast? ≠ some '/')
    (hb : b.data.head? ≠ some '/') : osJoin2 a b = a ++ "/" ++ b := by
  unfold osJoin2
  rw [if_neg hb, if_neg (by push_neg; exact ⟨ha, ha2⟩)]

theorem data_append_str (a b : String) : (a ++ b).data = a.data ++ b.data := rfl

theorem seg_ne_nil (a b : String) (h : b.data ≠ []) : (a ++ b).data ≠ [] := by
  rw [data_append_str]
  intro hh
  exact h (List.append_eq_nil.mp hh).2

theorem seg_getLast (a b : String) (h : b.data ≠ []) :
    (a ++ b).data.getLast? = b.data.getLast? := by
  rw [data_append_str, List.getLast?_append_of_ne_nil _ h]

/- Registration facts used for the duplicate-verb claim. -/

theorem addCommand_error_msg {d : List (String × Command)} {c : Command} {e : String}
    (h : AddCommand d c = Except.error e) : e = "command already registered" := by
  unfold AddCommand at h
  split at h
  · exact (Except.error.inj h).symm
  · exact Except.noConfusion h

theorem loadCommands_error_msg : ∀ (cs : List Command) (d : List (String × Command))
    (e : String), loadCommands d cs = Except.error e → e = "command already registered" := by
  intro cs
  induction cs with
  | nil => intro d e h; exact Except.noConfusion h
  | cons c cs ih =>
    intro d e h
    unfold loadCommands at h
    split at h
    · rename_i e2 heq
      injection h with he
      subst he
      exact addCommand_error_msg heq
    · exact ih _ _ h

theorem addCommand_keys {d : List (String × Command)} {c : Command}
    {d2 : List (String × Command)} (h : AddCommand d c = Except.ok d2) :
    d2.map Prod.fst = d.map Prod.fst ++ [pyLower c.name] := by
  unfold AddCommand at h
  split at h
  · exact Except.noConfusion h
  · injection h with hd
    subst hd
    simp

theorem loadCommands_dup_error : ∀ (l1 : List Command) (c : Command)
    (l2 : List Command) (d : List (String × Command)),
    pyLower c.name ∈ d.map Prod.fst →
    ∃ e, loadCommands d (l1 ++ c :: l2) = Except.error e := by
  intro l1
  induction l1 with
  | nil =>
    intro c l2 d hmem
    refine ⟨"command already registered", ?_⟩
    simp only [List.nil_append]
    unfold loadCommands AddCommand
    rw [if_pos hmem]
  | cons a l1 ih =>
    intro c l2 d hmem
    simp only [List.cons_append]
    unfold loadCommands
    cases hA : AddCommand d a with
    | error e => exact ⟨e, rfl⟩
    | ok d2 =>
      have hm2 : pyLower c.name ∈ d2.map Prod.fst := by
        rw [addCommand_keys hA]
        exact List.mem_append_left _ hmem
      exact ih c l2 d2 hm2

theorem loadCommands_cons (d : List (String × Command)) (c : Command) (cs : List Command) :
    loadCommands d (c :: cs) =
      match AddCommand d c with
      | Except.error e => Except.error e
      | Except.ok d2 => loadCommands d2 cs := rfl

theorem loadCommands_append : ∀ (l1 l2 : List Command) (d : List (String × Command)),
    loadCommands d (l1 ++ l2) =
      match loadCommands d l1 with
      | Except.ok d2 => loadCommands d2 l2
      | Except.error e => Except.error e := by
  intro l1
  induction l1 with
  | nil => intro l2 d; rfl
  | cons a l1 ih =>
    intro l2 d
    simp only [List.cons_append]
    rw [loadCommands_cons, loadCommands_cons]
    cases AddCommand d a with
    | error e => rfl
    | ok d2 => exact ih l2 d2

/-- Claim C1: the claim says Dispatch must not raise on an empty or
whitespace-only line and that OnModCommand reports success for every
line.  The code instead evaluates args[0] on an empty token list, which
raises IndexError, so OnModCommand never reaches its return: for every
registry and every line that splits into no tokens, the embedded
OnModCommand produces the IndexError value rather than a success
result. -/
theorem claim_c1_empty_line_raises (d : List (String × Command)) (line : String)
    (h : pySplit line = []) :
    OnModCommand d line = Except.error "list index out of range" := by
  unfold OnModCommand Dispatch
  rw [h]

theorem claim_c1_empty_line_raises_witness :
    pySplit "" = [] ∧ pySplit " " = [] ∧
    OnModCommand testRegistry "" = Except.error "list index out of range" ∧
    OnModCommand testRegistry " " = Except.error "list index out of range" :=
  ⟨rfl, rfl, claim_c1_empty_line_raises testRegistry "" rfl,
    claim_c1_empty_line_raises testRegistry " " rfl⟩

/-- Claim C2 counterexample: with an existing log file holding the lines
"foo bar" and "baz", ShowLog does not emit exactly the file lines: its
output carries a leading header line naming the resolved path. -/
theorem claim_c2_counterexample :
    showLog oneFileEnv "w" "d" =
      ["Content of /h/.znc/users/u/moddata/log/n/w/d.log:", "foo bar", "baz"] ∧
    showLog oneFileEnv "w" "d" ≠ ["foo bar", "baz"] := by
  decide

/-- Claim C2 as amended: for every (window, date) pair whose resolved log
file exists, ShowLog emits a header line naming the resolved path
followed by exactly the file lines, in file order, unmodified (decoding
with byte replacement is part of the abstract file model). -/
theorem claim_c2_showlog_lines (e : Env) (w d : String) (lines : List String)
    (h : e.files (GetLogPath e.home e.user e.network w d) = some lines) :
    showLog e w d =
      ("Content of " ++ GetLogPath e.home e.user e.network w d ++ ":") :: lines := by
  unfold showLog
  simp only [h]

theorem claim_c2_showlog_lines_witness :
    oneFileEnv.files (GetLogPath oneFileEnv.home oneFileEnv.user oneFileEnv.network
      "w" "d") = some ["foo bar", "baz"] ∧
    showLog oneFileEnv "w" "d" =
      ["Content of /h/.znc/users/u/moddata/log/n/w/d.log:", "foo bar", "baz"] :=
  ⟨rfl, claim_c2_showlog_lines oneFileEnv "w" "d" ["foo bar", "baz"] rfl⟩

/-- Claim C3 counterexample: when the resolved file is missing, the single
line printed by ShowLog is not the bare not-found message: the error
printer prefixes it with "ERROR: ". -/
theorem claim_c3_counterexample :
    showLog emptyEnv "w" "d" =
      ["ERROR: No such log file for w on d (/h/.znc/users/u/moddata/log/n/w/d.log)"] ∧
    showLog emptyEnv "w" "d" ≠
      ["No such log file for w on d (/h/.znc/users/u/moddata/log/n/w/d.log)"] ∧
    grepLog emptyEnv "w" "d" "x" ≠
      ["No such log file for w on d (/h/.znc/users/u/moddata/log/n/w/d.log)"] := by
  decide

/-- Claim C3 as amended: for every (window, date) pair whose resolved log
file does not exist, ShowLog and SearchLog each produce exactly one line,
the not-found message with the resolved path interpolated and an
"ERROR: " prefix, and no content lines. -/
theorem claim_c3_not_found (e : Env) (w d rx : String)
    (h : e.files (GetLogPath e.home e.user e.network w d) = none) :
    showLog e w d =
      [printErr (notFoundMsg w d (GetLogPath e.home e.user e.network w d))] ∧
    grepLog e w d rx =
      [printErr (notFoundMsg w d (GetLogPath e.home e.user e.network w d))] := by
  constructor
  · unfold showLog
    simp only [h]
  · unfold grepLog
    simp only [h]

theorem claim_c3_not_found_witness :
    emptyEnv.files (GetLogPath emptyEnv.home emptyEnv.user emptyEnv.network
      "w" "d") = none ∧
    showLog emptyEnv "w" "d" =
      ["ERROR: No such log file for w on d (/h/.znc/users/u/moddata/log/n/w/d.log)"] ∧
    grepLog emptyEnv "w" "d" "x" =
      ["ERROR: No such log file for w on d (/h/.znc/users/u/moddata/log/n/w/d.log)"] :=
  ⟨rfl, (claim_c3_not_found emptyEnv "w" "d" "x" rfl).1,
    (claim_c3_not_found emptyEnv "w" "d" "x" rfl).2⟩

/-- Claim C4 counterexample: with the file lines "foo bar" and "baz" and a
pattern matching only the first line, SearchLog does not emit exactly the
matching lines: a header line comes first; and with a pattern that fails
to compile it emits two lines (header plus error), not a single error
line. -/
theorem claim_c4_counterexample :
    grepLog oneFileEnv "w" "d" "x" =
      ["Content of /h/.znc/users/u/moddata/log/n/w/d.log matching x:", "foo bar"] ∧
    grepLog oneFileEnv "w" "d" "x" ≠ ["foo bar"] ∧
    grepLog oneFileEnv "w" "d" "(" =
      ["Content of /h/.znc/users/u/moddata/log/n/w/d.log matching (:",
       "ERROR: missing ), unterminated subpattern"] ∧
    (grepLog oneFileEnv "w" "d" "(").length ≠ 1 := by
  decide

/-- Claim C4 as amended: for every (window, date) pair whose file exists
and every pattern: after a header line, if the pattern compiles SearchLog
emits exactly those file lines on which the search succeeds, preserving
file order; if the pattern fails to compile it emits, after the header,
a single error line and zero content lines. -/
theorem claim_c4_greplog_filter (e : Env) (w d rx : String) (lines : List String)
    (h : e.files (GetLogPath e.home e.user e.network w d) = some lines) :
    (∀ m, e.compile rx = Except.ok m →
      grepLog e w d rx =
        ("Content of " ++ GetLogPath e.home e.user e.network w d ++
          " matching " ++ rx ++ ":") :: lines.filter (fun l => m l)) ∧
    (∀ err, e.compile rx = Except.error err →
      grepLog e w d rx =
        [("Content of " ++ GetLogPath e.home e.user e.network w d ++
          " matching " ++ rx ++ ":"), printErr err]) := by
  constructor
  · intro m hm
    unfold grepLog
    simp only [h, hm]
  · intro err herr
    unfold grepLog
    simp only [h, herr]

theorem claim_c4_greplog_filter_witness :
    oneFileEnv.compile "x" = Except.ok (fun l => l.data.head? == some 'f') ∧
    grepLog oneFileEnv "w" "d" "x" =
      ["Content of /h/.znc/users/u/moddata/log/n/w/d.log matching x:", "foo bar"] ∧
    oneFileEnv.compile "(" = Except.error "missing ), unterminated subpattern" ∧
    grepLog oneFileEnv "w" "d" "(" =
      ["Content of /h/.znc/users/u/moddata/log/n/w/d.log matching (:",
       "ERROR: missing ), unterminated subpattern"] :=
  ⟨rfl,
    (claim_c4_greplog_filter oneFileEnv "w" "d" "x" ["foo bar", "baz"] rfl).1
      (fun l => l.data.head? == some 'f') rfl,
    rfl,
    (claim_c4_greplog_filter oneFileEnv "w" "d" "(" ["foo bar", "baz"] rfl).2
      "missing ), unterminated subpattern" rfl⟩

/-- Claim C5 counterexample: for a window directory holding the file
"2024.log.log", the code strips every occurrence of ".log" from the
basename and returns the stem "2024", while stripping only the trailing
".log" extension would return "2024.log". -/
theorem claim_c5_counterexample :
    GetLogsDates dotLogEnv "w" = ["2024"] ∧
    specTrailingStem "2024.log.log" = "2024.log" ∧
    GetLogsDates dotLogEnv "w" ≠ [specTrailingStem "2024.log.log"] := by
  decide

/-- Claim C5 as amended: for every window, AvailableDates returns exactly
the stems of the basenames matching the "*.log" glob under the window
directory, where each stem is the basename with every occurrence of the
substring ".log" removed (the Python replace removes all occurrences,
not only the trailing extension); on basenames whose stem contains no
dot this coincides with stripping only the trailing ".log" extension. -/
theorem claim_c5_dates_stems (e : Env) (w stem : String) :
    GetLogsDates e w =
      ((e.dirs (osJoin (getBasePath e.home e.user e.network) [w])).filter
        (fun en => globStarLogMatch en.name)).map (fun en => stripLogAll en.name) ∧
    ('.' ∉ stem.data →
      stripLogAll (stem ++ ".log") = stem ∧
      specTrailingStem (stem ++ ".log") = stem) := by
  refine ⟨rfl, fun h => ⟨?_, ?_⟩⟩
  · unfold stripLogAll
    rw [data_append_str, replaceLogChars_append stem.data h]
  · unfold specTrailingStem
    rw [if_pos (List.isSuffixOf_iff_suffix.mpr
      (data_append_str stem ".log" ▸ List.suffix_append stem.data ".log".data))]
    have hlen : (stem ++ ".log").data.length - 4 = stem.data.length := by
      rw [data_append_str, List.length_append]
      rfl
    rw [hlen, data_append_str, List.take_left]

theorem claim_c5_dates_stems_witness :
    ('.' ∉ ("2023-01-01" : String).data) ∧
    stripLogAll ("2023-01-01" ++ ".log") = "2023-01-01" ∧
    specTrailingStem ("2023-01-01" ++ ".log") = "2023-01-01" :=
  ⟨by decide, ((claim_c5_dates_stems emptyEnv "w" "2023-01-01").2 (by decide)).1,
    ((claim_c5_dates_stems emptyEnv "w" "2023-01-01").2 (by decide)).2⟩

/-- Claim C6 counterexample: the empty-set messages are printed through
the error printer, so the emitted line is "ERROR: No such logs for window
w" rather than the bare message; moreover a hidden directory entry under
the log root is a directory entry yet is never listed, so ListWindows
does not print exactly the directory entries. -/
theorem claim_c6_counterexample :
    (LogDatesCommand emptyEnv).doPerform ["w"] = ["ERROR: No such logs for window w"] ∧
    (LogDatesCommand emptyEnv).doPerform ["w"] ≠ ["No such logs for window w"] ∧
    (hiddenDirEnv.dirs (getBasePath hiddenDirEnv.home hiddenDirEnv.user
      hiddenDirEnv.network)).filter (fun en => en.isDir) = [⟨".hidden", true⟩] ∧
    (LogWindowsCommand hiddenDirEnv).doPerform [] = ["ERROR: No such windows logs"] ∧
    (LogWindowsCommand hiddenDirEnv).doPerform [] ≠ ["No such windows logs"] := by
  decide

/-- Claim C6 as amended: ListDates and ListWindows print their result
sets sorted ascending in the code-point order, each preceded by a header
line — ListDates the stems computed from the "*.log" files of the window
directory, ListWindows the non-hidden directory entries under the log
root — and when the set is empty each prints exactly its not-found
message prefixed with "ERROR: ". -/
theorem claim_c6_sorted_listings (e : Env) (w : String) :
    (GetLogsDates e w ≠ [] →
      (LogDatesCommand e).doPerform [w] =
        ("List of all available log date for window " ++ w ++ ":") ::
          (GetLogsDates e w).insertionSort pyLe ∧
      List.Sorted pyLe ((GetLogsDates e w).insertionSort pyLe) ∧
      List.Perm ((GetLogsDates e w).insertionSort pyLe) (GetLogsDates e w)) ∧
    (GetLogsDates e w = [] →
      (LogDatesCommand e).doPerform [w] = [printErr ("No such logs for window " ++ w)]) ∧
    (GetWinList e ≠ [] →
      (LogWindowsCommand e).doPerform [] =
        "List of all available windows:" :: (GetWinList e).insertionSort pyLe ∧
      List.Sorted pyLe ((GetWinList e).insertionSort pyLe) ∧
      List.Perm ((GetWinList e).insertionSort pyLe) (GetWinList e)) ∧
    (GetWinList e = [] →
      (LogWindowsCommand e).doPerform [] = [printErr "No such windows logs"]) := by
  refine ⟨fun h => ⟨?_, List.sorted_insertionSort pyLe _, List.perm_insertionSort pyLe _⟩,
    fun h => ?_,
    fun h => ⟨?_, List.sorted_insertionSort pyLe _, List.perm_insertionSort pyLe _⟩,
    fun h => ?_⟩
  · simp only [LogDatesCommand]
    rw [if_pos (List.length_pos.mpr h)]
  · simp only [LogDatesCommand]
    rw [if_neg (by rw [h]; simp)]
  · simp only [LogWindowsCommand]
    rw [if_pos (List.length_pos.mpr h)]
  · simp only [LogWindowsCommand]
    rw [if_neg (by rw [h]; simp)]

theorem claim_c6_sorted_listings_witness :
    GetLogsDates datesEnv "w" = ["2023-01-02", "2023-01-01"] ∧
    (LogDatesCommand datesEnv).doPerform ["w"] =
      ["List of all available log date for window w:", "2023-01-01", "2023-01-02"] ∧
    GetWinList winsEnv = ["bchan", "achan"] ∧
    (LogWindowsCommand winsEnv).doPerform [] =
      ["List of all available windows:", "achan", "bchan"] :=
  ⟨rfl, ((claim_c6_sorted_listings datesEnv "w").1 (by decide)).1,
    rfl, ((claim_c6_sorted_listings winsEnv "w").2.2.1 (by decide)).1⟩

/-- Claim C7: registering a second handler whose verb equals an already
registered one after case folding raises NameError during registration,
and a load sequence containing two such handlers anywhere makes OnLoad
return failure with the message "Error: " followed by the exception
text, so the plugin does not load. -/
theorem claim_c7_duplicate_verb (cs1 : List Command) (cA cB : Command)
    (cs2 cs3 : List Command) (hname : pyLower cA.name = pyLower cB.name) :
    (∀ (d d1 : List (String × Command)), AddCommand d cA = Except.ok d1 →
      AddCommand d1 cB = Except.error "command already registered") ∧
    OnLoad (cs1 ++ cA :: cs2 ++ cB :: cs3) =
      (false, some "Error: command already registered") := by
  constructor
  · intro d d1 hok
    unfold AddCommand
    rw [if_pos (by
      rw [addCommand_keys hok, ← hname]
      exact List.mem_append_right _ (List.mem_singleton.mpr rfl))]
  · have hshape : cs1 ++ cA :: cs2 ++ cB :: cs3 = cs1 ++ (cA :: (cs2 ++ cB :: cs3)) := by
      rw [List.append_assoc, List.cons_append]
    have hfull : ∃ e2, loadCommands [] (cs1 ++ (cA :: (cs2 ++ cB :: cs3))) =
        Except.error e2 := by
      rw [loadCommands_append]
      cases hL : loadCommands [] cs1 with
      | error e => exact ⟨e, rfl⟩
      | ok d1 =>
        show ∃ e2, loadCommands d1 (cA :: (cs2 ++ cB :: cs3)) = Except.error e2
        rw [loadCommands_cons]
        cases hA : AddCommand d1 cA with
        | error e => exact ⟨e, rfl⟩
        | ok d2 =>
          show ∃ e2, loadCommands d2 (cs2 ++ cB :: cs3) = Except.error e2
          refine loadCommands_dup_error cs2 cB cs3 d2 ?_
          rw [addCommand_keys hA, ← hname]
          exact List.mem_append_right _ (List.mem_singleton.mpr rfl)
    obtain ⟨e2, he2⟩ := hfull
    have hmsg := loadCommands_error_msg _ _ _ he2
    subst hmsg
    rw [hshape]
    unfold OnLoad
    rw [he2]
    decide

theorem claim_c7_duplicate_verb_witness :
    pyLower dupCommandA.name = pyLower dupCommandB.name ∧
    OnLoad [dupCommandA, dupCommandB] =
      (false, some "Error: command already registered") :=
  ⟨by decide,
    (claim_c7_duplicate_verb [] dupCommandA dupCommandB [] [] (by decide)).2⟩

/-- Claim C8 counterexample: the claim quantifies over every non-empty
command line, but for a first token matching no registered verb the
not-found path echoes the token in its original case, so two case
variants of an unregistered verb produce different output. -/
theorem claim_c8_counterexample :
    pyLower "FOO" = pyLower "foo" ∧
    Dispatch testRegistry "FOO" ≠ Dispatch testRegistry "foo" := by
  decide

/-- Claim C8 as amended: for every command line whose first token
case-folds to a registered verb or to "help", replacing the first token
by any case-variant of itself selects the same handler, passes it the
same remaining arguments, and produces identical output; on the
not-found path the echoed verb keeps its original case. -/
theorem claim_c8_case_insensitive (d : List (String × Command))
    (l1 l2 t1 t2 : String) (rest : List String)
    (h1 : pySplit l1 = t1 :: rest) (h2 : pySplit l2 = t2 :: rest)
    (hlow : pyLower t1 = pyLower t2)
    (hreg : (findCommand d (pyLower t1)).isSome = true ∨ pyLower t1 = "help") :
    Dispatch d l1 = Dispatch d l2 := by
  unfold Dispatch
  simp only [h1, h2]
  rw [hlow] at hreg ⊢
  cases hf : findCommand d (pyLower t2) with
  | some c => simp only [hf]
  | none =>
    simp only [hf]
    rcases hreg with hs | hh
    · rw [hf] at hs
      exact absurd hs (by simp)
    · rw [if_pos hh, if_pos hh]

theorem claim_c8_case_insensitive_witness :
    pySplit "LOGCAT x" = ["LOGCAT", "x"] ∧
    pySplit "logcat x" = ["logcat", "x"] ∧
    pyLower "LOGCAT" = pyLower "logcat" ∧
    (findCommand testRegistry (pyLower "LOGCAT")).isSome = true ∧
    Dispatch testRegistry "LOGCAT x" = Dispatch testRegistry "logcat x" :=
  ⟨rfl, rfl, rfl, rfl,
    claim_c8_case_insensitive testRegistry "LOGCAT x" "logcat x" "LOGCAT" "logcat"
      ["x"] rfl rfl rfl (Or.inl rfl)⟩

/-- Claim C9: LogFilePath is a pure function equal to the os.path.join
of home, the host data directory ".znc", "users", the user, "moddata",
"log", the network, the window, and the date with ".log" appended — the
log root being determined by home, user and network alone — and when no
component is absolute or separator-terminated the result is the plain
concatenation, with window and date interpolated verbatim, no filtering
of separators or parent-directory sequences. -/
theorem claim_c9_log_path (home user network window date : String) :
    GetLogPath home user network window date =
      osJoin home [".znc", "users", user, "moddata", "log", network, window,
        date ++ ".log"] ∧
    (home.data ≠ [] → home.data.getLast? ≠ some '/' →
     user.data ≠ [] → user.data.getLast? ≠ some '/' → user.data.head? ≠ some '/' →
     network.data ≠ [] → network.data.getLast? ≠ some '/' →
     network.data.head? ≠ some '/' →
     window.data ≠ [] → window.data.getLast? ≠ some '/' →
     window.data.head? ≠ some '/' →
     date.data.head? ≠ some '/' →
     (GetLogPath home user network window date).data =
       home.data ++ "/.znc/users/".data ++ user.data ++ "/moddata/log/".data ++
         network.data ++ "/".data ++ window.data ++ "/".data ++ date.data ++
         ".log".data) := by
  refine ⟨rfl, ?_⟩
  intro h1 h2 h3 h4 h5 h6 h7 h8 h9 h10 h11 h12
  have hdl : (date ++ ".log").data.head? ≠ some '/' := by
    rcases hd : date.data with _ | ⟨c, cs⟩
    · rw [data_append_str, hd]
      decide
    · rw [data_append_str, hd]
      simp only [List.cons_append, List.head?_cons]
      rw [hd] at h12
      simpa using h12
  have e1 : osJoin2 home ".znc" = home ++ "/" ++ ".znc" :=
    osJoin2_eq _ _ h1 h2 (by decide)
  have n1 : (home ++ "/" ++ ".znc").data ≠ [] := seg_ne_nil _ _ (by decide)
  have g1 : (home ++ "/" ++ ".znc").data.getLast? ≠ some '/' := by
    rw [seg_getLast _ _ (by decide)]; decide
  have e2 : osJoin2 (home ++ "/" ++ ".znc") "users" =
      home ++ "/" ++ ".znc" ++ "/" ++ "users" :=
    osJoin2_eq _ _ n1 g1 (by decide)
  have n2 : (home ++ "/" ++ ".znc" ++ "/" ++ "users").data ≠ [] :=
    seg_ne_nil _ _ (by decide)
  have g2 : (home ++ "/" ++ ".znc" ++ "/" ++ "users").data.getLast? ≠ some '/' := by
    rw [seg_getLast _ _ (by decide)]; decide
  have e3 : osJoin2 (home ++ "/" ++ ".znc" ++ "/" ++ "users") user =
      home ++ "/" ++ ".znc" ++ "/" ++ "users" ++ "/" ++ user :=
    osJoin2_eq _ _ n2 g2 h5
  have n3 : (home ++ "/" ++ ".znc" ++ "/" ++ "users" ++ "/" ++ user).data ≠ [] :=
    seg_ne_nil _ _ h3
  have g3 : (home ++ "/" ++ ".znc" ++ "/" ++ "users" ++ "/" ++ user).data.getLast? ≠
      some '/' := by
    rw [seg_getLast _ _ h3]; exact h4
  have e4 : osJoin2 (home ++ "/" ++ ".znc" ++ "/" ++ "users" ++ "/" ++ user)
      "moddata" = home ++ "/" ++ ".znc" ++ "/" ++ "users" ++ "/" ++ user ++ "/" ++
      "moddata" :=
    osJoin2_eq _ _ n3 g3 (by decide)
  have n4 : (home ++ "/" ++ ".znc" ++ "/" ++ "users" ++ "/" ++ user ++ "/" ++
      "moddata").data ≠ [] := seg_ne_nil _ _ (by decide)
  have g4 : (home ++ "/" ++ ".znc" ++ "/" ++ "users" ++ "/" ++ user ++ "/" ++
      "moddata").data.getLast? ≠ some '/' := by
    rw [seg_getLast _ _ (by decide)]; decide
  have e5 : osJoin2 (home ++ "/" ++ ".znc" ++ "/" ++ "users" ++ "/" ++ user ++ "/" ++
      "moddata") "log" = home ++ "/" ++ ".znc" ++ "/" ++ "users" ++ "/" ++ user ++
      "/" ++ "moddata" ++ "/" ++ "log" :=
    osJoin2_eq _ _ n4 g4 (by decide)
  have n5 : (home ++ "/" ++ ".znc" ++ "/" ++ "users" ++ "/" ++ user ++ "/" ++
      "moddata" ++ "/" ++ "log").data ≠ [] := seg_ne_nil _ _ (by decide)
  have g5 : (home ++ "/" ++ ".znc" ++ "/" ++ "users" ++ "/" ++ user ++ "/" ++
      "moddata" ++ "/" ++ "log").data.getLast? ≠ some '/' := by
    rw [seg_getLast _ _ (by decide)]; decide
  have e6 : osJoin2 (home ++ "/" ++ ".znc" ++ "/" ++ "users" ++ "/" ++ user ++ "/" ++
      "moddata" ++ "/" ++ "log") network = home ++ "/" ++ ".znc" ++ "/" ++ "users" ++
      "/" ++ user ++ "/" ++ "moddata" ++ "/" ++ "log" ++ "/" ++ network :=
    osJoin2_eq _ _ n5 g5 h8
  have n6 : (home ++ "/" ++ ".znc" ++ "/" ++ "users" ++ "/" ++ user ++ "/" ++
      "moddata" ++ "/" ++ "log" ++ "/" ++ network).data ≠ [] := seg_ne_nil _ _ h6
  have g6 : (home ++ "/" ++ ".znc" ++ "/" ++ "users" ++ "/" ++ user ++ "/" ++
      "moddata" ++ "/" ++ "log" ++ "/" ++ network).data.getLast? ≠ some '/' := by
    rw [seg_getLast _ _ h6]; exact h7
  have e7 : osJoin2 (home ++ "/" ++ ".znc" ++ "/" ++ "users" ++ "/" ++ user ++ "/" ++
      "moddata" ++ "/" ++ "log" ++ "/" ++ network) window = home ++ "/" ++ ".znc" ++
      "/" ++ "users" ++ "/" ++ user ++ "/" ++ "moddata" ++ "/" ++ "log" ++ "/" ++
      network ++ "/" ++ window :=
    osJoin2_eq _ _ n6 g6 h11
  have n7 : (home ++ "/" ++ ".znc" ++ "/" ++ "users" ++ "/" ++ user ++ "/" ++
      "moddata" ++ "/" ++ "log" ++ "/" ++ network ++ "/" ++ window).data ≠ [] :=
    seg_ne_nil _ _ h9
  have g7 : (home ++ "/" ++ ".znc" ++ "/" ++ "users" ++ "/" ++ user ++ "/" ++
      "moddata" ++ "/" ++ "log" ++ "/" ++ network ++ "/" ++ window).data.getLast? ≠
      some '/' := by
    rw [seg_getLast _ _ h9]; exact h10
  have e8 : osJoin2 (home ++ "/" ++ ".znc" ++ "/" ++ "users" ++ "/" ++ user ++ "/" ++
      "moddata" ++ "/" ++ "log" ++ "/" ++ network ++ "/" ++ window) (date ++ ".log") =
      home ++ "/" ++ ".znc" ++ "/" ++ "users" ++ "/" ++ user ++ "/" ++ "moddata" ++
      "/" ++ "log" ++ "/" ++ network ++ "/" ++ window ++ "/" ++ (date ++ ".log") :=
    osJoin2_eq _ _ n7 g7 hdl
  show (osJoin2 (osJoin2 (osJoin2 (osJoin2 (osJoin2 (osJoin2 (osJoin2 (osJoin2
    home ".znc") "users") user) "moddata") "log") network) window)
    (date ++ ".log")).data = _
  rw [e1, e2, e3, e4, e5, e6, e7, e8]
  simp only [data_append_str]
  simp [List.append_assoc]

theorem claim_c9_log_path_witness :
    (GetLogPath "/home/bob" "alice" "net" "../esc" "2023-01-01").data =
      ("/home/bob/.znc/users/alice/moddata/log/net/../esc/2023-01-01.log" :
        String).data :=
  (claim_c9_log_path "/home/bob" "alice" "net" "../esc" "2023-01-01").2
    (by decide) (by decide) (by decide) (by decide) (by decide) (by decide)
    (by decide) (by decide) (by decide) (by decide) (by decide) (by decide)

/-- Claim C10: a dispatched verb with no further tokens passes None as
the argument list, Perform normalizes None to the empty list before the
concrete action, and each handler that requires arguments answers the
empty list with its usage text, so a bare verb never raises and prints
usage. -/
theorem claim_c10_bare_verb (e : Env) (d : List (String × Command))
    (line t : String) (c : Command)
    (hsplit : pySplit line = [t]) (hfind : findCommand d (pyLower t) = some c) :
    Dispatch d line = Except.ok (Perform c none) ∧
    Perform c none = c.doPerform [] ∧
    (LogCatCommand e).doPerform [] = cmdHelp (LogCatCommand e) ∧
    (LogGrepCommand e).doPerform [] = cmdHelp (LogGrepCommand e) ∧
    (LogDatesCommand e).doPerform [] = cmdHelp (LogDatesCommand e) := by
  refine ⟨?_, rfl, rfl, rfl, rfl⟩
  unfold Dispatch
  rw [hsplit]
  simp only [hfind, List.isEmpty_nil, if_pos]

theorem claim_c10_bare_verb_witness :
    pySplit "logdates" = ["logdates"] ∧
    findCommand testRegistry (pyLower "logdates") = some (LogDatesCommand emptyEnv) ∧
    Dispatch testRegistry "logdates" =
      Except.ok ["LogDates <window>", "List all available dates for window."] :=
  ⟨rfl, rfl,
    (claim_c10_bare_verb emptyEnv testRegistry "logdates" "logdates"
      (LogDatesCommand emptyEnv) rfl rfl).1⟩

end LogViewer
